import Mathlib

/-!
Verification of the Linux clipboard facade (`src/clipboard_linux.cc`).

Byte strings are modelled as `List Nat` (each element one byte of the
C++ `std::string`).  Pure helpers (`splitLines`, `joinWithCrlf`, the
payload construction of `WriteFilePaths`, the decode loop of
`ReadFilePaths`, the JPEG quality clamp) are translated directly from
the source.  The GLib URI conversions `g_filename_to_uri` /
`g_filename_from_uri` are external collaborators, modelled from the
spec.  The GTK session (clipboard handles, selection transfer, the
lazily memoized `gtk_init_check`) is modelled as explicit state plus an
action trace.
-/

namespace ClipboardLinux

/-- Faithful translation of `splitLines` (clipboard_linux.cc:24-46):
carriage returns are discarded, a line feed terminates the current line
(an empty current line is emitted as the empty line), and a trailing
non-terminated fragment is emitted only when nonempty.  `current` is the
accumulator variable of the C++ loop. -/
def splitLinesAux (current : List Nat) : List Nat → List (List Nat)
  | [] => if current = [] then [] else [current]
  | b :: rest =>
    if b = 13 then splitLinesAux current rest
    else if b = 10 then current :: splitLinesAux [] rest
    else splitLinesAux (current ++ [b]) rest

/-- `splitLines` from the source, on byte lists. -/
def splitLines (data : List Nat) : List (List Nat) :=
  splitLinesAux [] data

/-- Faithful translation of `joinWithCrlf` (clipboard_linux.cc:48-55):
every item is followed by CRLF, including the last. -/
def joinWithCrlf : List (List Nat) → List Nat
  | [] => []
  | item :: rest => item ++ [13, 10] ++ joinWithCrlf rest

/-- Bytes that are left unescaped by the URI encoder: unreserved URI
characters (alphanumeric, `-`, `.`, `_`, `~`) and the path separator
`/`. -/
def isUriSafe (b : Nat) : Bool :=
  if (48 ≤ b ∧ b ≤ 57) ∨ (65 ≤ b ∧ b ≤ 90) ∨ (97 ≤ b ∧ b ≤ 122) ∨
      b = 45 ∨ b = 46 ∨ b = 95 ∨ b = 126 ∨ b = 47 then true else false

/-- Uppercase hexadecimal digit for a nibble. -/
def hexDigitChar (n : Nat) : Nat :=
  if n < 10 then 48 + n else 55 + n

/-- Value of a hexadecimal digit byte, `none` for a non-hex byte. -/
def hexVal (c : Nat) : Option Nat :=
  if 48 ≤ c ∧ c ≤ 57 then some (c - 48)
  else if 65 ≤ c ∧ c ≤ 70 then some (c - 55)
  else if 97 ≤ c ∧ c ≤ 102 then some (c - 87)
  else none

/-- Percent-encoding of a byte string: safe bytes are copied, every
other byte becomes `%XX` with uppercase hex digits. -/
def percentEncode : List Nat → List Nat
  | [] => []
  | b :: rest =>
    (if isUriSafe b then [b]
     else [37, hexDigitChar (b / 16), hexDigitChar (b % 16)]) ++ percentEncode rest

/-- Percent-decoding; fails on a malformed escape. -/
def percentDecode : List Nat → Option (List Nat)
  | [] => some []
  | b :: rest =>
    if b = 37 then
      match rest with
      | h :: l :: rest2 =>
        match hexVal h, hexVal l with
        | some x, some y => (percentDecode rest2).map (fun t => (16 * x + y) :: t)
        | _, _ => none
      | _ => none
    else (percentDecode rest).map (fun t => b :: t)

/-- The bytes of `file://`. -/
def fileScheme : List Nat := [102, 105, 108, 101, 58, 47, 47]

/-- Modelled from the spec: GLib's `g_filename_to_uri` (an external
collaborator, not in this repository): an absolute path is converted to
a `file://` URI with percent-encoding applied to reserved and non-ASCII
bytes; conversion fails (returns `none`) for a non-absolute path. -/
def filenameToUri (path : List Nat) : Option (List Nat) :=
  if path.head? = some 47 then some (fileScheme ++ percentEncode path)
  else none

/-- Modelled from the spec: GLib's `g_filename_from_uri` (an external
collaborator, not in this repository): a successful parse requires the
`file://` scheme, an empty host, an absolute percent-encoded path, and
yields the decoded path; any failure yields `none`. -/
def filenameFromUri (uri : List Nat) : Option (List Nat) :=
  if uri.take 7 = fileScheme ∧ (uri.drop 7).head? = some 47 then
    percentDecode (uri.drop 7)
  else none

/-- The per-line decode loop of `ReadFilePaths`
(clipboard_linux.cc:120-138): empty lines and `#`-comment lines are
skipped, each remaining line is parsed by `g_filename_from_uri`,
successful parses are appended, failures are dropped. -/
def decodeLines : List (List Nat) → List (List Nat)
  | [] => []
  | line :: rest =>
    if line = [] then decodeLines rest
    else if line.head? = some 35 then decodeLines rest
    else
      match filenameFromUri line with
      | some filename => filename :: decodeLines rest
      | none => decodeLines rest

/-- The full decode pipeline applied by `ReadFilePaths` to the selection
bytes: split into lines, then the per-line loop. -/
def readPathsFromBytes (data : List Nat) : List (List Nat) :=
  decodeLines (splitLines data)

/-- The URI list built by `WriteFilePaths` (clipboard_linux.cc:153-170):
paths whose conversion fails are dropped, the rest joined with CRLF
after each. -/
def uriEntries (file_paths : List (List Nat)) : List (List Nat) :=
  file_paths.filterMap filenameToUri

/-- The `text/uri-list` bytes produced by `WriteFilePaths`. -/
def encodeFilePaths (file_paths : List (List Nat)) : List Nat :=
  joinWithCrlf (uriEntries file_paths)

/-- The plain-text fallback loop of `WriteFilePaths`
(clipboard_linux.cc:172-180): the input paths joined by a single LF
between consecutive entries, no trailing newline. -/
def plainJoin : List (List Nat) → List Nat
  | [] => []
  | [p] => p
  | p :: rest => p ++ 10 :: plainJoin rest

/-- `UriListData` (clipboard_linux.cc:58-61): the Selection Offer
Payload holding both representations. -/
structure UriListData where
  uri_list : List Nat
  plain_text : List Nat
  deriving DecidableEq

/-- The payload constructed and published by `WriteFilePaths`. -/
def buildPayload (file_paths : List (List Nat)) : UriListData :=
  { uri_list := encodeFilePaths file_paths
    plain_text := plainJoin file_paths }

/-- A path without URI-encoding-hostile bytes: absolute (leading `/`)
and made of bytes (each element below 256). -/
def pathOk (p : List Nat) : Prop :=
  p.head? = some 47 ∧ ∀ b ∈ p, b < 256

instance (p : List Nat) : Decidable (pathOk p) := by
  unfold pathOk; infer_instance

/-- The two `static bool` cells of `EnsureGtkInitialized`
(clipboard_linux.cc:11-22). -/
structure GtkState where
  attempted : Bool
  initialized : Bool
  deriving DecidableEq

/-- Process start: neither flag set. -/
def gtkState0 : GtkState := ⟨false, false⟩

/-- Faithful translation of `EnsureGtkInitialized`
(clipboard_linux.cc:11-22): on the first call `attempted` is set and the
outcome of `gtk_init_check` (the external probe, passed in as
`initCheck`) is memoized in `initialized`; later calls return the
memoized flag.  Returns the query result and the updated state. -/
def EnsureGtkInitialized (initCheck : Bool) (s : GtkState) : Bool × GtkState :=
  if s.attempted = false then
    let s2 : GtkState := ⟨true, initCheck⟩
    (s2.initialized, s2)
  else (s.initialized, s)

/-- Number of `gtk_init_check` probes one call performs from state `s`:
one when not yet attempted, zero afterwards. -/
def attachCount (s : GtkState) : Nat :=
  if s.attempted = false then 1 else 0

/-- A sequence of `EnsureGtkInitialized` calls (one external probe
outcome per call), returning the final state and the total number of
attachment probes performed. -/
def runEnsure : List Bool → GtkState → GtkState × Nat
  | [], s => (s, 0)
  | r :: rs, s =>
    let next := runEnsure rs (EnsureGtkInitialized r s).2
    (next.1, attachCount s + next.2)

/-- Observable clipboard/session accesses an operation may perform. -/
inductive ClipAction where
  | getClipboard
  | waitForContents
  | setWithData
  | storeClipboard
  | clearClipboard
  | waitForImage
  | pixbufSave
  | setImage
  | imageAvailProbe
  | pixbufNewFromFile
  deriving DecidableEq

/-- Responses of the external GTK session collaborator: whether the
clipboard handle is non-null, the selection bytes a
`wait_for_contents` returns (`none` for no offer), whether
`wait_for_image` yields a pixbuf, the outcomes of `gdk_pixbuf_save` and
`gdk_pixbuf_new_from_file`, and the image availability probe. -/
structure ClipEnv where
  clipboardOk : Bool
  selData : Option (List Nat)
  image : Bool
  saveOk : Bool
  decodeOk : Bool
  imageAvail : Bool
  deriving DecidableEq

/-- `ReadFilePaths` (clipboard_linux.cc:93-141): result, updated GTK
state, and the trace of clipboard accesses performed. -/
def ReadFilePaths (env : ClipEnv) (initCheck : Bool) (s : GtkState) :
    List (List Nat) × GtkState × List ClipAction :=
  let es := EnsureGtkInitialized initCheck s
  if es.1 = false then ([], es.2, [])
  else if env.clipboardOk = false then ([], es.2, [.getClipboard])
  else
    match env.selData with
    | none => ([], es.2, [.getClipboard, .waitForContents])
    | some data =>
      if data.length = 0 then ([], es.2, [.getClipboard, .waitForContents])
      else (readPathsFromBytes data, es.2, [.getClipboard, .waitForContents])

/-- `WriteFilePaths` (clipboard_linux.cc:143-197): the published payload
(`none` when nothing was published), updated GTK state, and the access
trace. -/
def WriteFilePaths (env : ClipEnv) (file_paths : List (List Nat))
    (initCheck : Bool) (s : GtkState) :
    Option UriListData × GtkState × List ClipAction :=
  let es := EnsureGtkInitialized initCheck s
  if es.1 = false then (none, es.2, [])
  else if env.clipboardOk = false then (none, es.2, [.getClipboard])
  else (some (buildPayload file_paths), es.2,
        [.getClipboard, .setWithData, .storeClipboard])

/-- `ClearClipboard` (clipboard_linux.cc:199-208). -/
def ClearClipboard (env : ClipEnv) (initCheck : Bool) (s : GtkState) :
    GtkState × List ClipAction :=
  let es := EnsureGtkInitialized initCheck s
  if es.1 = false then (es.2, [])
  else if env.clipboardOk = false then (es.2, [.getClipboard])
  else (es.2, [.getClipboard, .clearClipboard])

/-- The quality clamp of `SaveClipboardImageAsJpeg`
(clipboard_linux.cc:223): `std::max(0, std::min(100, x))` on the
integer obtained from the compression factor. -/
def clampQuality (x : Int) : Int :=
  max 0 (min 100 x)

/-- Truncation toward zero, modelling the C++ `static_cast<int>` of the
scaled factor (the `float` is modelled as a rational). -/
def truncToInt (q : Rat) : Int :=
  if 0 ≤ q then Int.floor q else Int.ceil q

/-- The quality parameter `SaveClipboardImageAsJpeg` passes to the JPEG
encoder for a given compression factor. -/
def jpegQuality (compression_factor : Rat) : Int :=
  clampQuality (truncToInt (compression_factor * 100))

/-- `SaveClipboardImageAsJpeg` (clipboard_linux.cc:210-234): result,
updated GTK state, access trace, and the quality passed to the encoder
(`none` when the encoder is never reached). -/
def SaveClipboardImageAsJpeg (env : ClipEnv) (compression_factor : Rat)
    (initCheck : Bool) (s : GtkState) :
    Bool × GtkState × List ClipAction × Option Int :=
  let es := EnsureGtkInitialized initCheck s
  if es.1 = false then (false, es.2, [], none)
  else if env.clipboardOk = false then (false, es.2, [.getClipboard], none)
  else if env.image = false then (false, es.2, [.getClipboard, .waitForImage], none)
  else (env.saveOk, es.2, [.getClipboard, .waitForImage, .pixbufSave],
        some (jpegQuality compression_factor))

/-- `SaveClipboardImageAsPng` (clipboard_linux.cc:236-255). -/
def SaveClipboardImageAsPng (env : ClipEnv) (initCheck : Bool) (s : GtkState) :
    Bool × GtkState × List ClipAction :=
  let es := EnsureGtkInitialized initCheck s
  if es.1 = false then (false, es.2, [])
  else if env.clipboardOk = false then (false, es.2, [.getClipboard])
  else if env.image = false then (false, es.2, [.getClipboard, .waitForImage])
  else (env.saveOk, es.2, [.getClipboard, .waitForImage, .pixbufSave])

/-- `PutImageIntoClipboard` (clipboard_linux.cc:257-278): the file is
decoded before the clipboard handle is obtained. -/
def PutImageIntoClipboard (env : ClipEnv) (initCheck : Bool) (s : GtkState) :
    Bool × GtkState × List ClipAction :=
  let es := EnsureGtkInitialized initCheck s
  if es.1 = false then (false, es.2, [])
  else if env.decodeOk = false then (false, es.2, [.pixbufNewFromFile])
  else if env.clipboardOk = false then (false, es.2, [.pixbufNewFromFile, .getClipboard])
  else (true, es.2,
        [.pixbufNewFromFile, .getClipboard, .setImage, .storeClipboard])

/-- `ClipboardHasImage` (clipboard_linux.cc:280-298), with the
non-blocking availability probe (GTK ≥ 2.6 branch). -/
def ClipboardHasImage (env : ClipEnv) (initCheck : Bool) (s : GtkState) :
    Bool × GtkState × List ClipAction :=
  let es := EnsureGtkInitialized initCheck s
  if es.1 = false then (false, es.2, [])
  else if env.clipboardOk = false then (false, es.2, [.getClipboard])
  else (env.imageAvail, es.2, [.getClipboard, .imageAvailProbe])

/-- One row of the `GtkTargetEntry targets[]` table
(clipboard_linux.cc:182-186). -/
structure GtkTargetEntry where
  target : String
  flags : Nat
  info : Nat
  deriving DecidableEq

/-- The target table `WriteFilePaths` publishes. -/
def writeTargets : List GtkTargetEntry :=
  [⟨"text/uri-list", 0, 0⟩, ⟨"UTF8_STRING", 0, 1⟩, ⟨"STRING", 0, 1⟩]

/-- The selection buffer filled by the provide callback: target atom,
format (bit granularity), data bytes. -/
structure SelectionData where
  target : String
  format : Nat
  data : List Nat
  deriving DecidableEq

/-- `clipboard_get_func` (clipboard_linux.cc:63-83): tag 0 serves the
URI-list bytes, any other tag serves the plain-text bytes, both with an
8-bit format. -/
def clipboard_get_func (payload : UriListData) (info : Nat) : SelectionData :=
  if info = 0 then ⟨"text/uri-list", 8, payload.uri_list⟩
  else ⟨"UTF8_STRING", 8, payload.plain_text⟩

/-- The Selection Offer Payload lifetime model: `nextId` counts
heap-allocated payloads, `live` the payloads currently on the heap,
`owner` the payload the clipboard holds a reference to, `freed` the
payloads already destroyed (in allocation order of the clear-callback
firings). -/
structure OfferSystem where
  nextId : Nat
  live : List Nat
  owner : Option Nat
  freed : List Nat
  deriving DecidableEq

/-- `clipboard_clear_func` (clipboard_linux.cc:85-89) fired by the
session on the current owner when the clipboard loses the selection:
the payload is deleted and the reference dropped. -/
def fireClear (sys : OfferSystem) : OfferSystem :=
  match sys.owner with
  | some i => { sys with live := sys.live.erase i, owner := none, freed := i :: sys.freed }
  | none => sys

/-- A `WriteFilePaths` publication (clipboard_linux.cc:169-193): the
session first fires the clear callback on the previous owner, then the
fresh heap payload is transferred to the clipboard; the core keeps no
reference. -/
def writeOffer (sys : OfferSystem) : OfferSystem :=
  let sys1 := fireClear sys
  { sys1 with nextId := sys1.nextId + 1, live := sys1.nextId :: sys1.live,
              owner := some sys1.nextId }

/-- A `ClearClipboard` call: the session fires the clear callback on
the current owner, if any. -/
def clearOffer (sys : OfferSystem) : OfferSystem :=
  fireClear sys

/-- Host-visible events driving the offer system. -/
inductive OfferEv where
  | write
  | clear
  deriving DecidableEq

/-- Run a sequence of write/clear events from process start. -/
def runOffers (evs : List OfferEv) : OfferSystem :=
  evs.foldl (fun sys e =>
    match e with
    | .write => writeOffer sys
    | .clear => clearOffer sys) ⟨0, [], none, []⟩

/-- The payload-lifetime invariant: the heap holds exactly the payload
the clipboard references (so nothing is leaked and nothing lives after
clearance), no payload is freed twice, and live/freed payloads were all
allocated. -/
def offerInv (sys : OfferSystem) : Prop :=
  (∀ i, sys.owner = some i → sys.live = [i] ∧ i ∉ sys.freed ∧ i < sys.nextId) ∧
  (sys.owner = none → sys.live = []) ∧
  sys.freed.Nodup ∧
  (∀ i ∈ sys.freed, i < sys.nextId)

instance (sys : OfferSystem) : Decidable (offerInv sys) := by
  unfold offerInv
  have : (∀ i, sys.owner = some i → sys.live = [i] ∧ i ∉ sys.freed ∧ i < sys.nextId)
      ↔ (∀ i ∈ sys.owner, sys.live = [i] ∧ i ∉ sys.freed ∧ i < sys.nextId) := by
    simp [Option.mem_def]
  rw [this]
  infer_instance

theorem hexVal_hexDigitChar (n : Nat) (h : n < 16) :
    hexVal (hexDigitChar n) = some n := by
  interval_cases n <;> decide

theorem isUriSafe_lower_bound (b : Nat) (h : isUriSafe b = true) : 45 ≤ b := by
  unfold isUriSafe at h
  split at h
  · omega
  · exact absurd h (by simp)

theorem hexDigitChar_lower_bound (n : Nat) : 48 ≤ hexDigitChar n := by
  unfold hexDigitChar
  split <;> omega

theorem percentDecode_cons_of_ne (b : Nat) (t : List Nat) (h : ¬ b = 37) :
    percentDecode (b :: t) = (percentDecode t).map (fun r => b :: r) := by
  match t with
  | [] => simp only [percentDecode, if_neg h]
  | [x] => simp only [percentDecode, if_neg h]
  | x :: y :: t2 => simp only [percentDecode, if_neg h]

theorem percentDecode_escape (h l : Nat) (t : List Nat) (x y : Nat)
    (hh : hexVal h = some x) (hl : hexVal l = some y) :
    percentDecode (37 :: h :: l :: t) =
      (percentDecode t).map (fun r => (16 * x + y) :: r) := by
  simp only [percentDecode, if_pos rfl]
  simp [hh, hl]

theorem percentDecode_percentEncode (bs : List Nat) (h : ∀ b ∈ bs, b < 256) :
    percentDecode (percentEncode bs) = some bs := by
  induction bs with
  | nil => rfl
  | cons b rest ih =>
    have hb : b < 256 := h b (List.mem_cons_self _ _)
    have hrest : ∀ x ∈ rest, x < 256 := fun x hx => h x (List.mem_cons_of_mem _ hx)
    by_cases hs : isUriSafe b = true
    · have hb37 : ¬ b = 37 := by
        intro e
        rw [e] at hs
        exact absurd hs (by decide)
      simp only [percentEncode, hs, if_pos, List.singleton_append]
      rw [percentDecode_cons_of_ne b _ hb37, ih hrest]
      rfl
    · have h16 : b / 16 < 16 := by omega
      have hm : b % 16 < 16 := Nat.mod_lt _ (by norm_num)
      simp only [percentEncode, hs, if_neg, Bool.false_eq_true, not_false_iff,
                 List.cons_append, List.nil_append]
      rw [percentDecode_escape _ _ _ _ _ (hexVal_hexDigitChar _ h16)
            (hexVal_hexDigitChar _ hm), ih hrest]
      simp [Nat.div_add_mod]

theorem percentEncode_no_crlf (bs : List Nat) :
    ∀ b ∈ percentEncode bs, ¬ b = 10 ∧ ¬ b = 13 := by
  induction bs with
  | nil => simp [percentEncode]
  | cons b rest ih =>
    intro x hx
    unfold percentEncode at hx
    rcases List.mem_append.1 hx with h1 | h2
    · by_cases hs : isUriSafe b = true
      · rw [if_pos hs] at h1
        have hxb : x = b := by simpa using h1
        have := isUriSafe_lower_bound b hs
        omega
      · rw [if_neg hs] at h1
        have h48a := hexDigitChar_lower_bound (b / 16)
        have h48b := hexDigitChar_lower_bound (b % 16)
        simp at h1
        rcases h1 with rfl | rfl | rfl <;> omega
    · exact ih x h2

theorem splitLinesAux_crlf (item : List Nat) (current rest : List Nat)
    (h : ∀ b ∈ item, ¬ b = 10 ∧ ¬ b = 13) :
    splitLinesAux current (item ++ 13 :: 10 :: rest) =
      (current ++ item) :: splitLinesAux [] rest := by
  induction item generalizing current with
  | nil => simp [splitLinesAux]
  | cons b item ih =>
    have hb := h b (List.mem_cons_self _ _)
    have hrest : ∀ x ∈ item, ¬ x = 10 ∧ ¬ x = 13 :=
      fun x hx => h x (List.mem_cons_of_mem _ hx)
    show splitLinesAux current (b :: (item ++ 13 :: 10 :: rest)) = _
    rw [splitLinesAux, if_neg hb.2, if_neg hb.1, ih _ hrest]
    simp

theorem splitLines_joinWithCrlf (items : List (List Nat))
    (h : ∀ item ∈ items, ∀ b ∈ item, ¬ b = 10 ∧ ¬ b = 13) :
    splitLines (joinWithCrlf items) = items := by
  induction items with
  | nil => rfl
  | cons item items ih =>
    have hitem := h item (List.mem_cons_self _ _)
    have hrest : ∀ x ∈ items, ∀ b ∈ x, ¬ b = 10 ∧ ¬ b = 13 :=
      fun x hx => h x (List.mem_cons_of_mem _ hx)
    unfold splitLines joinWithCrlf
    have : item ++ [13, 10] ++ joinWithCrlf items =
        item ++ 13 :: 10 :: joinWithCrlf items := by
      simp
    rw [this, splitLinesAux_crlf item [] _ hitem]
    simpa using ih hrest

theorem fileScheme_no_crlf : ∀ b ∈ fileScheme, ¬ b = 10 ∧ ¬ b = 13 := by
  decide

theorem encodedUri_no_crlf (p : List Nat) :
    ∀ b ∈ fileScheme ++ percentEncode p, ¬ b = 10 ∧ ¬ b = 13 := by
  intro b hb
  rcases List.mem_append.1 hb with h1 | h2
  · exact fileScheme_no_crlf b h1
  · exact percentEncode_no_crlf p b h2

theorem percentEncode_head (p : List Nat) (h : p.head? = some 47) :
    (percentEncode p).head? = some 47 := by
  cases p with
  | nil => simp at h
  | cons a t =>
    have ha : a = 47 := by simpa using h
    subst ha
    have hs : isUriSafe 47 = true := by decide
    simp [percentEncode, hs]

theorem filenameFromUri_encode (p : List Nat) (h : pathOk p) :
    filenameFromUri (fileScheme ++ percentEncode p) = some p := by
  obtain ⟨h1, h2⟩ := h
  have htake : (fileScheme ++ percentEncode p).take 7 = fileScheme := rfl
  have hdrop : (fileScheme ++ percentEncode p).drop 7 = percentEncode p := rfl
  unfold filenameFromUri
  rw [if_pos]
  · rw [hdrop]
    exact percentDecode_percentEncode p h2
  · exact ⟨htake, by rw [hdrop]; exact percentEncode_head p h1⟩

theorem uriEntries_eq_map (paths : List (List Nat)) (h : ∀ p ∈ paths, pathOk p) :
    uriEntries paths = paths.map (fun p => fileScheme ++ percentEncode p) := by
  induction paths with
  | nil => rfl
  | cons p rest ih =>
    have hp := h p (List.mem_cons_self _ _)
    have hrest : ∀ x ∈ rest, pathOk x := fun x hx => h x (List.mem_cons_of_mem _ hx)
    have henc : filenameToUri p = some (fileScheme ++ percentEncode p) := by
      unfold filenameToUri
      rw [if_pos hp.1]
    simp [uriEntries, List.filterMap_cons, henc]
    simpa [uriEntries] using ih hrest

theorem decodeLines_encoded (paths : List (List Nat)) (h : ∀ p ∈ paths, pathOk p) :
    decodeLines (paths.map (fun p => fileScheme ++ percentEncode p)) = paths := by
  induction paths with
  | nil => rfl
  | cons p rest ih =>
    have hp := h p (List.mem_cons_self _ _)
    have hrest : ∀ x ∈ rest, pathOk x := fun x hx => h x (List.mem_cons_of_mem _ hx)
    have hne : ¬ (fileScheme ++ percentEncode p) = [] := by
      simp [fileScheme]
    have hhead : ¬ (fileScheme ++ percentEncode p).head? = some 35 := by
      simp [fileScheme]
    simp only [List.map_cons, decodeLines, if_neg hne, if_neg hhead,
               filenameFromUri_encode p hp]
    rw [ih hrest]

theorem decodeLines_sound (lines : List (List Nat)) (p : List Nat)
    (h : p ∈ decodeLines lines) :
    ∃ line ∈ lines, ¬ line = [] ∧ ¬ line.head? = some 35 ∧
      filenameFromUri line = some p := by
  induction lines with
  | nil => simp [decodeLines] at h
  | cons line rest ih =>
    by_cases h1 : line = []
    · rw [decodeLines, if_pos h1] at h
      obtain ⟨l, hl, hprop⟩ := ih h
      exact ⟨l, List.mem_cons_of_mem _ hl, hprop⟩
    · by_cases h2 : line.head? = some 35
      · rw [decodeLines, if_neg h1, if_pos h2] at h
        obtain ⟨l, hl, hprop⟩ := ih h
        exact ⟨l, List.mem_cons_of_mem _ hl, hprop⟩
      · rw [decodeLines, if_neg h1, if_neg h2] at h
        cases hf : filenameFromUri line with
        | none =>
          rw [hf] at h
          obtain ⟨l, hl, hprop⟩ := ih h
          exact ⟨l, List.mem_cons_of_mem _ hl, hprop⟩
        | some q =>
          rw [hf] at h
          rcases List.mem_cons.1 h with rfl | hmem
          · exact ⟨line, List.mem_cons_self _ _, h1, h2, hf⟩
          · obtain ⟨l, hl, hprop⟩ := ih hmem
            exact ⟨l, List.mem_cons_of_mem _ hl, hprop⟩

theorem plainJoin_eq_intercalate (paths : List (List Nat)) :
    plainJoin paths = List.intercalate [10] paths := by
  induction paths with
  | nil => rfl
  | cons p rest ih =>
    cases rest with
    | nil => simp [plainJoin, List.intercalate]
    | cons q rest2 =>
      rw [show plainJoin (p :: q :: rest2) = p ++ 10 :: plainJoin (q :: rest2) from rfl,
          ih]
      simp [List.intercalate, List.intersperse]

theorem ensure_attempted (r : Bool) (s : GtkState) :
    ((EnsureGtkInitialized r s).2).attempted = true := by
  unfold EnsureGtkInitialized
  by_cases h : s.attempted = false
  · rw [if_pos h]
  · rw [if_neg h]
    simpa using h

theorem runEnsure_zero_of_attempted (rs : List Bool) (s : GtkState)
    (h : s.attempted = true) : (runEnsure rs s).2 = 0 := by
  induction rs generalizing s with
  | nil => rfl
  | cons r rs ih =>
    simp [runEnsure, attachCount, h, ih _ (ensure_attempted r s)]

theorem fireClear_owner (sys : OfferSystem) : (fireClear sys).owner = none := by
  cases h : sys.owner <;> simp [fireClear, h]

theorem fireClear_nextId (sys : OfferSystem) :
    (fireClear sys).nextId = sys.nextId := by
  cases h : sys.owner <;> simp [fireClear, h]

theorem offerInv_fireClear (sys : OfferSystem) (h : offerInv sys) :
    offerInv (fireClear sys) := by
  obtain ⟨h1, h2, h3, h4⟩ := h
  unfold fireClear
  cases ho : sys.owner with
  | none => exact ⟨h1, h2, h3, h4⟩
  | some i =>
    obtain ⟨hl, hf, hn⟩ := h1 i ho
    refine ⟨?_, ?_, ?_, ?_⟩
    · intro j hj
      simp at hj
    · intro _
      rw [hl]
      simp
    · exact List.nodup_cons.mpr ⟨hf, h3⟩
    · intro j hj
      rcases List.mem_cons.1 hj with rfl | hj2
      · exact hn
      · exact h4 j hj2

theorem offerInv_writeOffer (sys : OfferSystem) (h : offerInv sys) :
    offerInv (writeOffer sys) := by
  have hc := offerInv_fireClear sys h
  obtain ⟨h1, h2, h3, h4⟩ := hc
  have hlive : (fireClear sys).live = [] := h2 (fireClear_owner sys)
  show offerInv ⟨(fireClear sys).nextId + 1,
    (fireClear sys).nextId :: (fireClear sys).live,
    some (fireClear sys).nextId, (fireClear sys).freed⟩
  refine ⟨?_, ?_, ?_, ?_⟩
  · intro j hj
    obtain rfl : (fireClear sys).nextId = j := by simpa using hj
    refine ⟨by rw [hlive], ?_, Nat.lt_succ_self _⟩
    intro hmem
    have := h4 _ hmem
    omega
  · intro hnone
    simp at hnone
  · exact h3
  · intro j hj
    exact Nat.lt_succ_of_lt (h4 j hj)

theorem offerInv_foldl (evs : List OfferEv) (sys : OfferSystem) (h : offerInv sys) :
    offerInv (evs.foldl (fun sys e =>
      match e with
      | .write => writeOffer sys
      | .clear => clearOffer sys) sys) := by
  induction evs generalizing sys with
  | nil => exact h
  | cons e evs ih =>
    cases e with
    | write => exact ih _ (offerInv_writeOffer _ h)
    | clear => exact ih _ (offerInv_fireClear _ h)

/-- C1: for every sequence `P` of absolute file paths containing no
URI-encoding-hostile bytes, decoding the URI list produced by encoding
`P` (each path converted to a `file://` URI, CRLF after each entry)
yields exactly `P`, in order, duplicates preserved. -/
theorem c1_decode_encode_roundtrip (P : List (List Nat))
    (h : ∀ p ∈ P, pathOk p) :
    readPathsFromBytes (encodeFilePaths P) = P := by
  unfold readPathsFromBytes encodeFilePaths
  rw [uriEntries_eq_map P h, splitLines_joinWithCrlf]
  · exact decodeLines_encoded P h
  · intro item hitem
    obtain ⟨p, hp, rfl⟩ := List.mem_map.1 hitem
    exact encodedUri_no_crlf p

theorem c1_witness :
    (∀ p ∈ ([[47, 97], [47, 98], [47, 97]] : List (List Nat)), pathOk p) ∧
    readPathsFromBytes (encodeFilePaths [[47, 97], [47, 98], [47, 97]]) =
      [[47, 97], [47, 98], [47, 97]] :=
  ⟨by decide, c1_decode_encode_roundtrip _ (by decide)⟩

/-- C2: for the input paths `/home/a/x.txt` and `/tmp/β.md` the payload
built by `WriteFilePaths` has `text/uri-list` bytes
`file:///home/a/x.txt` CRLF `file:///tmp/%CE%B2.md` CRLF (a CRLF after
every entry, including the last) and plain-text (`UTF8_STRING`) bytes
equal to the two paths joined by a single LF, no trailing newline. -/
theorem c2_write_concrete_bytes :
    buildPayload [[47, 104, 111, 109, 101, 47, 97, 47, 120, 46, 116, 120, 116],
                  [47, 116, 109, 112, 47, 206, 178, 46, 109, 100]] =
      ⟨[102, 105, 108, 101, 58, 47, 47, 47, 104, 111, 109, 101, 47, 97, 47,
        120, 46, 116, 120, 116, 13, 10,
        102, 105, 108, 101, 58, 47, 47, 47, 116, 109, 112, 47, 37, 67, 69,
        37, 66, 50, 46, 109, 100, 13, 10],
       [47, 104, 111, 109, 101, 47, 97, 47, 120, 46, 116, 120, 116, 10,
        47, 116, 109, 112, 47, 206, 178, 46, 109, 100]⟩ := by
  decide

/-- C3: the URI-list decoder is a total function (it is a Lean `def`,
defined for every byte buffer), and every entry of its output is derived
from a line of the CR-stripped line split that is neither empty nor a
`#`-comment line. -/
theorem c3_decoder_skips_empty_and_comment (B : List Nat) (p : List Nat)
    (h : p ∈ readPathsFromBytes B) :
    ∃ line ∈ splitLines B, ¬ line = [] ∧ ¬ line.head? = some 35 ∧
      filenameFromUri line = some p :=
  decodeLines_sound (splitLines B) p h

theorem c3_witness :
    [47, 97] ∈ readPathsFromBytes [102, 105, 108, 101, 58, 47, 47, 47, 97] ∧
    (∃ line ∈ splitLines [102, 105, 108, 101, 58, 47, 47, 47, 97],
      ¬ line = [] ∧ ¬ line.head? = some 35 ∧
      filenameFromUri line = some [47, 97]) :=
  ⟨by decide, c3_decoder_skips_empty_and_comment _ _ (by decide)⟩

/-- C4: decoding `# comment` CRLF `file:///a` CRLF CRLF `file:///b`
CRLF yields exactly `[/a, /b]`; decoding the empty buffer yields the
empty sequence; a buffer with only comment lines yields the empty
sequence. -/
theorem c4_read_concrete :
    readPathsFromBytes [35, 32, 99, 111, 109, 109, 101, 110, 116, 13, 10,
        102, 105, 108, 101, 58, 47, 47, 47, 97, 13, 10, 13, 10,
        102, 105, 108, 101, 58, 47, 47, 47, 98, 13, 10] =
      [[47, 97], [47, 98]] ∧
    readPathsFromBytes [] = [] ∧
    readPathsFromBytes [35, 99, 13, 10, 35, 100, 13, 10] = [] := by
  decide

/-- C5: when the session attachment did not succeed, every public
operation returns its neutral failure value (empty sequence for the
file-path read, `false` for the four boolean image operations, a no-op
for write and clear) and performs no clipboard access (empty action
trace). -/
theorem c5_neutral_when_session_failed (env : ClipEnv)
    (paths : List (List Nat)) (f : Rat) (r : Bool) (s : GtkState)
    (h : (EnsureGtkInitialized r s).1 = false) :
    ReadFilePaths env r s = ([], (EnsureGtkInitialized r s).2, []) ∧
    WriteFilePaths env paths r s = (none, (EnsureGtkInitialized r s).2, []) ∧
    ClearClipboard env r s = ((EnsureGtkInitialized r s).2, []) ∧
    SaveClipboardImageAsJpeg env f r s =
      (false, (EnsureGtkInitialized r s).2, [], none) ∧
    SaveClipboardImageAsPng env r s = (false, (EnsureGtkInitialized r s).2, []) ∧
    PutImageIntoClipboard env r s = (false, (EnsureGtkInitialized r s).2, []) ∧
    ClipboardHasImage env r s = (false, (EnsureGtkInitialized r s).2, []) := by
  refine ⟨?_, ?_, ?_, ?_, ?_, ?_, ?_⟩ <;>
    simp [ReadFilePaths, WriteFilePaths, ClearClipboard,
          SaveClipboardImageAsJpeg, SaveClipboardImageAsPng,
          PutImageIntoClipboard, ClipboardHasImage, h]

theorem c5_witness :
    ReadFilePaths ⟨true, some [102], true, true, true, true⟩ true ⟨true, false⟩ =
      ([], ⟨true, false⟩, []) ∧
    WriteFilePaths ⟨true, some [102], true, true, true, true⟩ [] true ⟨true, false⟩ =
      (none, ⟨true, false⟩, []) ∧
    ClearClipboard ⟨true, some [102], true, true, true, true⟩ true ⟨true, false⟩ =
      (⟨true, false⟩, []) ∧
    SaveClipboardImageAsJpeg ⟨true, some [102], true, true, true, true⟩ 0 true
        ⟨true, false⟩ = (false, ⟨true, false⟩, [], none) ∧
    SaveClipboardImageAsPng ⟨true, some [102], true, true, true, true⟩ true
        ⟨true, false⟩ = (false, ⟨true, false⟩, []) ∧
    PutImageIntoClipboard ⟨true, some [102], true, true, true, true⟩ true
        ⟨true, false⟩ = (false, ⟨true, false⟩, []) ∧
    ClipboardHasImage ⟨true, some [102], true, true, true, true⟩ true
        ⟨true, false⟩ = (false, ⟨true, false⟩, []) :=
  c5_neutral_when_session_failed _ [] 0 true ⟨true, false⟩ (by decide)

/-- C6: the session handle transitions at most once from not-attempted
to acquired or failed: over any sequence of calls from process start at
most one attachment probe is performed, a call on an already-attempted
state returns the memoized flag without changing state, and the first
call memoizes the probe outcome. -/
theorem c6_attach_at_most_once (rs : List Bool) (r : Bool) (s : GtkState) :
    (runEnsure rs gtkState0).2 ≤ 1 ∧
    (s.attempted = true → EnsureGtkInitialized r s = (s.initialized, s)) ∧
    EnsureGtkInitialized r gtkState0 = (r, ⟨true, r⟩) := by
  refine ⟨?_, ?_, rfl⟩
  · cases rs with
    | nil => simp [runEnsure]
    | cons r0 rs0 =>
      simp only [runEnsure, attachCount, gtkState0]
      rw [runEnsure_zero_of_attempted rs0 _ (ensure_attempted r0 ⟨false, false⟩)]
      simp
  · intro h
    unfold EnsureGtkInitialized
    rw [if_neg (by simp [h])]

theorem c6_witness :
    (runEnsure [true, false] gtkState0).2 ≤ 1 ∧
    EnsureGtkInitialized false ⟨true, true⟩ = (true, ⟨true, true⟩) ∧
    EnsureGtkInitialized false gtkState0 = (false, ⟨true, false⟩) :=
  ⟨(c6_attach_at_most_once [true, false] false ⟨true, true⟩).1,
   (c6_attach_at_most_once [true, false] false ⟨true, true⟩).2.1 rfl,
   (c6_attach_at_most_once [true, false] false ⟨true, true⟩).2.2⟩

/-- C7: over every sequence of write/clear events, a Selection Offer
Payload allocated by a write is live exactly while the clipboard holds
the reference to it, is destroyed exactly once when the clearance
callback fires (the freed list stays duplicate-free and disjoint from
the live heap), and nothing is leaked (no owner means an empty heap). -/
theorem c7_payload_destroyed_exactly_once (evs : List OfferEv) :
    offerInv (runOffers evs) := by
  unfold runOffers
  exact offerInv_foldl evs _ (by decide)

/-- C8: `WriteFilePaths` publishes exactly three targets —
`text/uri-list` tagged 0 (the URI-list representation), `UTF8_STRING`
and `STRING` both tagged 1 (the plain-text representation) — and the
provide callback writes the URI-list bytes for tag 0 and the plain-text
bytes for any other tag, always with an 8-bit format. -/
theorem c8_targets_and_provide_dispatch :
    writeTargets = [⟨"text/uri-list", 0, 0⟩, ⟨"UTF8_STRING", 0, 1⟩,
        ⟨"STRING", 0, 1⟩] ∧
    (∀ payload : UriListData,
      clipboard_get_func payload 0 = ⟨"text/uri-list", 8, payload.uri_list⟩) ∧
    (∀ (payload : UriListData) (info : Nat), ¬ info = 0 →
      clipboard_get_func payload info = ⟨"UTF8_STRING", 8, payload.plain_text⟩) := by
  refine ⟨rfl, fun payload => rfl, fun payload info h => ?_⟩
  simp [clipboard_get_func, h]

theorem c8_witness :
    clipboard_get_func ⟨[1], [2]⟩ 1 = ⟨"UTF8_STRING", 8, [2]⟩ :=
  c8_targets_and_provide_dispatch.2.2 ⟨[1], [2]⟩ 1 (by decide)

/-- C9: the quality passed to the JPEG encoder is the compression
factor times 100, truncated to an integer and clamped to [0, 100]; the
result lies in [0, 100] for every factor, and for factors inside
[0, 1] the clamp is the identity on the truncated value. -/
theorem c9_jpeg_quality_bounds (f : Rat) :
    jpegQuality f = clampQuality (truncToInt (f * 100)) ∧
    0 ≤ jpegQuality f ∧ jpegQuality f ≤ 100 ∧
    (0 ≤ f → f ≤ 1 → jpegQuality f = truncToInt (f * 100)) := by
  refine ⟨rfl, le_max_left 0 _, max_le (by norm_num) (min_le_left _ _), ?_⟩
  intro h0 h1
  have hx0 : (0 : Rat) ≤ f * 100 := by positivity
  have t_eq : truncToInt (f * 100) = Int.floor (f * 100) := by
    unfold truncToInt
    rw [if_pos hx0]
  have hge : 0 ≤ Int.floor (f * 100) := Int.floor_nonneg.mpr hx0
  have hle : Int.floor (f * 100) ≤ 100 := by
    have hb : f * 100 ≤ (100 : Rat) := by nlinarith
    have := Int.floor_mono hb
    simpa using this
  unfold jpegQuality clampQuality
  rw [t_eq, min_eq_right hle, max_eq_right hge]

theorem c9_witness :
    0 ≤ jpegQuality (1 / 2) ∧ jpegQuality (1 / 2) ≤ 100 ∧
    jpegQuality (1 / 2) = truncToInt ((1 / 2 : Rat) * 100) :=
  ⟨(c9_jpeg_quality_bounds (1 / 2)).2.1,
   (c9_jpeg_quality_bounds (1 / 2)).2.2.1,
   (c9_jpeg_quality_bounds (1 / 2)).2.2.2 (by norm_num) (by norm_num)⟩

/-- C10: the plain-text fallback built by `WriteFilePaths` contains
every input path (all paths joined by single LF), while the URI list
keeps only the paths whose conversion succeeded, so the two
representations can list different numbers of entries — witnessed by
the relative path `a`, dropped from the URI list but kept in the
plain text. -/
theorem c10_plain_text_keeps_dropped_paths (paths : List (List Nat)) :
    (buildPayload paths).plain_text = List.intercalate [10] paths ∧
    (uriEntries paths).length ≤ paths.length ∧
    (uriEntries [[97]]).length < ([[97]] : List (List Nat)).length ∧
    (buildPayload [[97]]).plain_text = [97] := by
  refine ⟨plainJoin_eq_intercalate paths, ?_, by decide, by decide⟩
  exact List.length_filterMap_le _ _

end ClipboardLinux
